import Mathlib

/-!
Verification of the chibidb storage core (disk manager, buffer pool,
page-layout codec) against its natural-language specification.

The Go sources `disk/disk.go` and `btree/btree.go` are embedded shallowly:
pages and files are `List Byte` (`Byte := Fin 256`), Go `int64` arithmetic is
`Int` with an explicit two's-complement wrap where overflow can occur, and
fallible operations return `Except Err _` or an `Option Err × _` state pair.
The `pool` package implementation is not part of the sources (only its test
is), so the buffer pool and pool manager are modelled from the spec.
-/

set_option maxHeartbeats 1000000
set_option maxRecDepth 4000

/-- A byte, as stored in a Go `[]byte`. -/
abbrev Byte := Fin 256

/-- Error kinds named by the spec (§7).  The Go code returns `fmt.Errorf`
values; each construction site corresponds to exactly one of these kinds. -/
inductive Err where
  | invalidArgument
  | invalidPageID
  | ioError
  | corruptHeapFile
  | wrongNodeType
  | poolExhausted
deriving DecidableEq, Repr

/-- `disk.PageSize`: pages are exactly 4096 bytes. -/
def PageSize : Nat := 4096

/-- `disk.InvalidID` / `disk.InvalidPageID`: the reserved invalid page id. -/
def InvalidID : Int := -1

/-- Two's-complement wrap of an integer into the `int64` range,
modelling Go's defined wrap-around arithmetic on `PageID = int64`. -/
def int64wrap (x : Int) : Int := (x + 2 ^ 63) % 2 ^ 64 - 2 ^ 63

/-- The `int64` range predicate: values a Go `PageID` can hold. -/
def isInt64 (x : Int) : Prop := -(2 ^ 63) ≤ x ∧ x < 2 ^ 63

instance (x : Int) : Decidable (isInt64 x) := by unfold isInt64; infer_instance

/-- Little-endian encoding of a natural number into `k` bytes, as
`binary.LittleEndian.PutUint64` / `PutUint16` lay it out. -/
def encodeLE : Nat → Nat → List Byte
  | 0, _ => []
  | k + 1, v => ⟨v % 256, Nat.mod_lt _ (by omega)⟩ :: encodeLE k (v / 256)

/-- Little-endian decoding of a byte list into a natural number, as
`binary.LittleEndian.Uint64` / `Uint16` read it. -/
def decodeLE : List Byte → Nat
  | [] => 0
  | b :: bs => b.val + 256 * decodeLE bs

/-- Reinterpretation of an unsigned 64-bit value as a signed `int64`,
as Go's `disk.PageID(binary.LittleEndian.Uint64 b)` conversion does. -/
def uint64ToInt64 (v : Nat) : Int :=
  if v < 2 ^ 63 then (v : Int) else (v : Int) - 2 ^ 64

/-- Go's `uint64(i)` conversion of an `int64`: reduction modulo `2^64`. -/
def int64ToUInt64 (i : Int) : Nat := (i % 2 ^ 64).toNat

theorem encodeLE_length (k v : Nat) : (encodeLE k v).length = k := by
  induction k generalizing v with
  | zero => rfl
  | succ k ih => simp [encodeLE, ih]

theorem decodeLE_lt (bs : List Byte) : decodeLE bs < 256 ^ bs.length := by
  induction bs with
  | nil => simp [decodeLE]
  | cons b bs ih =>
    have hb : b.val < 256 := b.isLt
    calc b.val + 256 * decodeLE bs < 256 + 256 * decodeLE bs := by omega
    _ ≤ 256 * (decodeLE bs + 1) := by ring_nf; omega
    _ ≤ 256 * 256 ^ bs.length := by
        have := ih; exact Nat.mul_le_mul_left _ (by omega)
    _ = 256 ^ (bs.length + 1) := by ring
  -- the goal for the cons case is stated over `decodeLE (b :: bs)`

theorem decodeLE_encodeLE (k v : Nat) : decodeLE (encodeLE k v) = v % 256 ^ k := by
  induction k generalizing v with
  | zero => simp [encodeLE, decodeLE, Nat.mod_one]
  | succ k ih =>
    have h256 : (256 : Nat) ^ (k + 1) = 256 * 256 ^ k := by ring
    calc decodeLE (encodeLE (k + 1) v) = v % 256 + 256 * (v / 256 % 256 ^ k) := by
          simp [encodeLE, decodeLE, ih]
    _ = v % (256 * 256 ^ k) := (Nat.mod_mul).symm
    _ = v % 256 ^ (k + 1) := by rw [h256]

/-- A byte slice `l[off : off+n]`: drop `off` bytes, take `n`. -/
def bslice (l : List Byte) (off n : Nat) : List Byte := (l.drop off).take n

/-- In-place overwrite of `d.length` bytes of `l` starting at `off`,
modelling Go's `copy(l[off:off+len(d)], d)` when the region is in range. -/
def overwrite (l : List Byte) (off : Nat) (d : List Byte) : List Byte :=
  l.take off ++ d ++ l.drop (off + d.length)

theorem overwrite_length (l d : List Byte) (off : Nat)
    (h : off + d.length ≤ l.length) : (overwrite l off d).length = l.length := by
  simp [overwrite]; omega

theorem bslice_length (l : List Byte) (off n : Nat) (h : off + n ≤ l.length) :
    (bslice l off n).length = n := by
  simp [bslice]; omega

theorem drop_overwrite (l d : List Byte) (off b : Nat)
    (hb : off + d.length ≤ b) (hl : off ≤ l.length) :
    (overwrite l off d).drop b = l.drop b := by
  unfold overwrite
  rw [List.append_assoc]
  have h1 : (l.take off).length = off := by simp; omega
  rw [List.drop_append_eq_append_drop, List.drop_append_eq_append_drop, h1]
  have h2 : (l.take off).drop b = [] := List.drop_eq_nil_of_le (by omega)
  have h3 : d.drop (b - off) = [] := List.drop_eq_nil_of_le (by omega)
  rw [h2, h3]
  simp only [List.nil_append]
  rw [List.drop_drop]
  congr 1
  omega

theorem take_overwrite (l d : List Byte) (off b : Nat)
    (hb : b ≤ off) (hl : off ≤ l.length) :
    (overwrite l off d).take b = l.take b := by
  unfold overwrite
  rw [List.append_assoc]
  have h1 : (l.take off).length = off := by simp; omega
  rw [List.take_append_eq_append_take, h1]
  have h2 : (l.take off).take b = l.take b := by
    rw [List.take_take]; congr 1; omega
  have h3 : b - off = 0 := by omega
  rw [h2, h3]
  simp

theorem bslice_overwrite_self (l d : List Byte) (off : Nat)
    (h : off + d.length ≤ l.length) :
    bslice (overwrite l off d) off d.length = d := by
  unfold bslice overwrite
  rw [List.append_assoc]
  have h1 : (l.take off).length = off := by simp; omega
  rw [List.drop_append_eq_append_drop, h1]
  have h2 : (l.take off).drop off = [] := List.drop_eq_nil_of_le (by simp)
  rw [h2]
  simp only [Nat.sub_self, List.drop_zero, List.nil_append]
  rw [List.take_append_eq_append_take]
  simp

theorem bslice_take (m : List Byte) (b n : Nat) :
    bslice m b n = bslice (m.take (b + n)) b n := by
  unfold bslice
  rw [List.drop_take, List.take_take]
  congr 1
  omega

theorem bslice_overwrite_before (l d : List Byte) (off b n : Nat)
    (hb : b + n ≤ off) (hl : off ≤ l.length) :
    bslice (overwrite l off d) b n = bslice l b n := by
  rw [bslice_take (overwrite l off d), bslice_take l]
  have h1 : (overwrite l off d).take (b + n) = l.take (b + n) :=
    take_overwrite l d off (b + n) (by omega) hl
  rw [h1]

theorem bslice_overwrite_after (l d : List Byte) (off b n : Nat)
    (hb : off + d.length ≤ b) (hl : off ≤ l.length) :
    bslice (overwrite l off d) b n = bslice l b n := by
  unfold bslice
  rw [drop_overwrite l d off b hb hl]

theorem int64wrap_eq_self (x : Int) (h0 : -(2 ^ 63) ≤ x) (h1 : x < 2 ^ 63) :
    int64wrap x = x := by
  unfold int64wrap
  rw [Int.emod_eq_of_lt (by omega) (by omega)]
  omega

theorem isInt64_int64wrap (x : Int) : isInt64 (int64wrap x) := by
  unfold isInt64 int64wrap
  have h1 : 0 ≤ (x + 2 ^ 63) % 2 ^ 64 := Int.emod_nonneg _ (by omega)
  have h2 : (x + 2 ^ 63) % 2 ^ 64 < 2 ^ 64 := Int.emod_lt_of_pos _ (by omega)
  omega

theorem int64wrap_add_left (a b : Int) :
    int64wrap (int64wrap a + b) = int64wrap (a + b) := by
  unfold int64wrap
  have h : (a + 2 ^ 63) % 2 ^ 64 - 2 ^ 63 + b + 2 ^ 63 = (a + 2 ^ 63) % 2 ^ 64 + b := by ring
  rw [h, Int.emod_add_emod]
  ring_nf

/-- `disk.FileManager`: the heap file's contents plus the next page id to
allocate.  The OS file is modelled by its byte contents; the seek position
needs no modelling because every operation seeks before touching the file. -/
structure FileManager where
  file : List Byte
  nextID : Int
deriving DecidableEq, Repr

/-- Zero-extension of a file to length at least `n`, as POSIX gives when
writing past end-of-file. -/
def padTo (file : List Byte) (n : Nat) : List Byte :=
  file ++ List.replicate (n - file.length) (0 : Byte)

/-- A positioned file write: extends with zero bytes if the offset is past
the end, then overwrites `d.length` bytes at `off`. -/
def writeBytes (file : List Byte) (off : Nat) (d : List Byte) : List Byte :=
  overwrite (padTo file (off + d.length)) off d

/-- A positioned file read of `buf.length` bytes at `off` into `buf`, with
the semantics the Go code actually gets from `File.Read`: at end-of-file the
read fails (`io.EOF`); otherwise the available bytes fill the front of the
buffer and the rest of the buffer keeps its old contents (the Go code
ignores the returned count). -/
def readBytes (file : List Byte) (off : Nat) (buf : List Byte) :
    Except Err (List Byte) :=
  if file.length ≤ off then .error .ioError
  else
    let n := min buf.length (file.length - off)
    .ok (bslice file off n ++ buf.drop n)

/-- `disk.NewFileManager`, given the opened heap file's contents: rejects a
file whose length is not a multiple of `PageSize`, otherwise derives
`nextID` from the length. -/
def newFileManager (file : List Byte) : Except Err FileManager :=
  if file.length % PageSize ≠ 0 then .error .corruptHeapFile
  else
    let nextID : Int := (file.length : Int) / (PageSize : Int)
    if nextID ≤ InvalidID then .error .invalidPageID
    else .ok ⟨file, nextID⟩

/-- `FileManager.checkSeek`: buffer-size check, page-id check, then the seek
to `pageID * PageSize`.  The multiplication is Go `int64` arithmetic, hence
the explicit wrap; `Seek` fails on a negative offset.  Returns the byte
offset actually seeked to. -/
def checkSeek (pageID : Int) (pageData : List Byte) : Except Err Nat :=
  if pageData.length ≠ PageSize then .error .invalidArgument
  else if pageID ≤ InvalidID then .error .invalidPageID
  else
    let off := int64wrap (pageID * (PageSize : Int))
    if off < 0 then .error .ioError
    else .ok off.toNat

/-- `FileManager.ReadPageData`: validate and seek, then read one page into
the caller's buffer. -/
def readPageData (m : FileManager) (pageID : Int) (pageData : List Byte) :
    Except Err (List Byte) :=
  match checkSeek pageID pageData with
  | .error e => .error e
  | .ok off => readBytes m.file off pageData

/-- `FileManager.WritePageData`: validate and seek, then write one page.
Returns the error (if any) together with the file-manager state after the
call, so that "the file is untouched" is expressible. -/
def writePageData (m : FileManager) (pageID : Int) (pageData : List Byte) :
    Option Err × FileManager :=
  match checkSeek pageID pageData with
  | .error e => (some e, m)
  | .ok off => (none, { m with file := writeBytes m.file off pageData })

/-- `FileManager.AllocateNewPage`: returns `nextID` and increments it
(Go `int64` increment, hence the wrap).  Total: it never fails and performs
no I/O. -/
def allocateNewPage (m : FileManager) : Int × FileManager :=
  (m.nextID, { m with nextID := int64wrap (m.nextID + 1) })

/-- `k` successive `AllocateNewPage` calls, collecting the returned ids. -/
def allocN (m : FileManager) : Nat → List Int × FileManager
  | 0 => ([], m)
  | k + 1 =>
    let p := allocateNewPage m
    let q := allocN p.2 k
    (p.1 :: q.1, q.2)

theorem padTo_length (file : List Byte) (n : Nat) :
    (padTo file n).length = max file.length n := by
  simp [padTo]; omega

theorem writeBytes_length (file d : List Byte) (off : Nat) :
    (writeBytes file off d).length = max file.length (off + d.length) := by
  unfold writeBytes
  rw [overwrite_length, padTo_length]
  rw [padTo_length]
  omega

theorem bslice_writeBytes_self (file d : List Byte) (off : Nat) :
    bslice (writeBytes file off d) off d.length = d := by
  unfold writeBytes
  apply bslice_overwrite_self
  rw [padTo_length]
  omega

theorem PageSize_eq : PageSize = 4096 := rfl

theorem checkSeek_ok (id : Int) (buf : List Byte) (h0 : 0 ≤ id) (h1 : id < 2 ^ 51)
    (hb : buf.length = PageSize) : checkSeek id buf = .ok (id * 4096).toNat := by
  have hc : ((PageSize : Nat) : Int) = 4096 := rfl
  have hw : int64wrap (id * ((PageSize : Nat) : Int)) = id * 4096 := by
    rw [hc]; exact int64wrap_eq_self _ (by omega) (by omega)
  simp only [checkSeek, hb, ne_eq, not_true_eq_false, if_false, ite_false,
    if_neg (show ¬ id ≤ InvalidID by unfold InvalidID; omega), hw,
    if_neg (show ¬ id * 4096 < 0 by omega)]

/-- Helper: the state and result of a valid page write. -/
theorem writePageData_ok (m : FileManager) (id : Int) (b : List Byte)
    (h0 : 0 ≤ id) (h1 : id < 2 ^ 51) (hb : b.length = PageSize) :
    writePageData m id b =
      (none, ⟨writeBytes m.file (id * 4096).toNat b, m.nextID⟩) := by
  simp [writePageData, checkSeek_ok id b h0 h1 hb]

/-- C2 (amended: the page id must also be small enough that the byte offset
`id * 4096` does not overflow `int64`, i.e. `id ≤ 2^51 - 1`): for every such
id and every 4096-byte buffer `b`, `WritePageData(id, b)` succeeds and a
following `ReadPageData(id, b2)` on the same `FileManager` succeeds and
returns exactly the bytes `b`. -/
theorem C2_disk_write_read_roundtrip (m : FileManager) (id : Int) (b b2 : List Byte)
    (h0 : 0 ≤ id) (h1 : id < 2 ^ 51)
    (hb : b.length = PageSize) (hb2 : b2.length = PageSize) :
    (writePageData m id b).1 = none ∧
    readPageData (writePageData m id b).2 id b2 = .ok b := by
  have hwp := writePageData_ok m id b h0 h1 hb
  refine ⟨by rw [hwp], ?_⟩
  rw [hwp]
  simp only [readPageData, checkSeek_ok id b2 h0 h1 hb2]
  have hb4 : b.length = 4096 := by rw [hb, PageSize_eq]
  have hb24 : b2.length = 4096 := by rw [hb2, PageSize_eq]
  have hlen : (writeBytes m.file (id * 4096).toNat b).length =
      max m.file.length ((id * 4096).toNat + 4096) := by
    rw [writeBytes_length, hb4]
  unfold readBytes
  rw [if_neg (by omega)]
  have hn : min b2.length
      ((writeBytes m.file (id * 4096).toNat b).length - (id * 4096).toNat) = 4096 := by
    rw [hb24, hlen]; omega
  simp only [hn]
  have hsl : bslice (writeBytes m.file (id * 4096).toNat b) ((id * 4096).toNat) 4096 = b := by
    have := bslice_writeBytes_self m.file b (id * 4096).toNat
    rwa [hb4] at this
  rw [hsl, List.drop_eq_nil_of_le (by omega), List.append_nil]

/-- Witness for C2: a concrete write/read round-trip at page id 0. -/
theorem C2_disk_write_read_roundtrip_witness :
    (writePageData ⟨[], 0⟩ 0 (List.replicate 4096 0)).1 = none ∧
    readPageData (writePageData ⟨[], 0⟩ 0 (List.replicate 4096 0)).2 0
      (List.replicate 4096 1) = .ok (List.replicate 4096 0) :=
  C2_disk_write_read_roundtrip ⟨[], 0⟩ 0 (List.replicate 4096 0) (List.replicate 4096 1)
    (by norm_num) (by norm_num)
    (by rw [List.length_replicate]; exact PageSize_eq.symm)
    (by rw [List.length_replicate]; exact PageSize_eq.symm)

/-- Counterexample to C2 as stated: at page id `2^51` the Go byte offset
`id * 4096` overflows `int64` to a negative value, the seek fails, and the
write errors instead of succeeding. -/
theorem C2_disk_write_read_roundtrip_counterexample :
    writePageData ⟨[], 0⟩ (2 ^ 51) (List.replicate 4096 0) =
      (some .ioError, ⟨[], 0⟩) ∧ (0 : Int) ≤ 2 ^ 51 := by
  refine ⟨?_, by norm_num⟩
  have hwrap : int64wrap ((2 ^ 51 : Int) * ((4096 : Nat) : Int)) = -(2 ^ 63) := by decide
  simp only [writePageData, checkSeek, List.length_replicate, PageSize_eq,
    ne_eq, not_true_eq_false, if_false, ite_false, hwrap,
    if_neg (show ¬ (2 ^ 51 : Int) ≤ InvalidID by unfold InvalidID; norm_num),
    if_pos (show -(2 ^ 63 : Int) < 0 by norm_num)]

theorem allocN_file (m : FileManager) (k : Nat) : (allocN m k).2.file = m.file := by
  induction k generalizing m with
  | zero => rfl
  | succ k ih => simp [allocN, allocateNewPage, ih]

theorem allocN_length (m : FileManager) (k : Nat) : (allocN m k).1.length = k := by
  induction k generalizing m with
  | zero => rfl
  | succ k ih => simp [allocN, allocateNewPage, ih]

theorem allocN_ids (m : FileManager) (k : Nat) (h : isInt64 m.nextID) :
    (allocN m k).1 = (List.range k).map (fun i : Nat => int64wrap (m.nextID + (i : Int))) := by
  induction k generalizing m with
  | zero => simp [allocN]
  | succ k ih =>
    have h' : isInt64 (int64wrap (m.nextID + 1)) := isInt64_int64wrap _
    have hfun : (fun i : Nat => int64wrap (int64wrap (m.nextID + 1) + (i : Int))) =
        (fun i : Nat => int64wrap (m.nextID + ((i + 1 : Nat) : Int))) := by
      funext i
      rw [int64wrap_add_left]
      congr 1
      push_cast
      ring
    simp only [allocN, allocateNewPage]
    rw [ih _ h', hfun, List.range_succ_eq_map, List.map_cons, List.map_map]
    congr 1
    rw [show (((0 : Nat) : Int)) = 0 by norm_num, add_zero]
    exact (int64wrap_eq_self _ h.1 h.2).symm

/-- C5 (amended: the strictly increasing run of identifiers is asserted only
while `fileLength/4096 + k` stays within `int64`, i.e. `≤ 2^63`; past that
the Go `nextID++` wraps): `NewFileManager` fails with `CorruptHeapFile` when
the heap length is not a multiple of 4096 and otherwise sets `nextID` to
`fileLength / 4096`; `AllocateNewPage` never fails, performs no I/O, and `k`
successive calls return exactly the identifiers
`fileLength/4096, ..., fileLength/4096 + k - 1`, strictly increasing and
distinct. -/
theorem C5_alloc_sequential (file : List Byte) (k : Nat) :
    (file.length % PageSize ≠ 0 → newFileManager file = .error .corruptHeapFile) ∧
    (file.length % PageSize = 0 →
      newFileManager file = .ok ⟨file, ((file.length / PageSize : Nat) : Int)⟩ ∧
      (file.length / PageSize + k ≤ 2 ^ 63 →
        (∀ i : Nat, i < k →
          ((allocN ⟨file, ((file.length / PageSize : Nat) : Int)⟩ k).1)[i]? =
            some (((file.length / PageSize : Nat) : Int) + i)) ∧
        ((allocN ⟨file, ((file.length / PageSize : Nat) : Int)⟩ k).1).Pairwise (· < ·) ∧
        ((allocN ⟨file, ((file.length / PageSize : Nat) : Int)⟩ k).1).length = k ∧
        (allocN ⟨file, ((file.length / PageSize : Nat) : Int)⟩ k).2.file = file)) := by
  constructor
  · intro hne
    simp [newFileManager, hne]
  · intro hmod
    set N : Nat := file.length / PageSize with hN
    have hcast : (file.length : Int) / ((PageSize : Nat) : Int) = (N : Int) := by
      rw [hN, Int.ofNat_ediv]
    have hok : newFileManager file = .ok ⟨file, (N : Int)⟩ := by
      unfold newFileManager
      rw [if_neg (by simp [hmod])]
      simp only [hcast]
      rw [if_neg (show ¬ (N : Int) ≤ InvalidID by
        have := Int.natCast_nonneg N; unfold InvalidID; omega)]
    refine ⟨hok, ?_⟩
    intro hk
    clear_value N
    clear hcast hok hN
    rcases Nat.eq_zero_or_pos k with hk0 | hkpos
    · subst hk0
      exact ⟨fun i hi => absurd hi (by omega), by simp [allocN], by simp [allocN], rfl⟩
    have hNlt : N < 2 ^ 63 := by omega
    have hI : isInt64 ((⟨file, (N : Int)⟩ : FileManager).nextID) := by
      show isInt64 ((N : Int))
      unfold isInt64
      omega
    have hids := allocN_ids ⟨file, (N : Int)⟩ k hI
    have hproj : (⟨file, (N : Int)⟩ : FileManager).nextID = (N : Int) := rfl
    rw [hproj] at hids
    have hwrap_eq : ∀ i : Nat, i < k → int64wrap ((N : Int) + (i : Int)) = (N : Int) + i := by
      intro i hi
      apply int64wrap_eq_self <;> omega
    refine ⟨?_, ?_, allocN_length _ k, allocN_file _ k⟩
    · intro i hi
      rw [hids, List.getElem?_map, List.getElem?_range hi, Option.map_some']
      rw [hwrap_eq i hi]
    · rw [hids, List.pairwise_map]
      refine (List.pairwise_lt_range k).imp_of_mem ?_
      intro a b ha hb hab
      rw [List.mem_range] at ha hb
      rw [hwrap_eq a ha, hwrap_eq b hb]
      omega

/-- Witness for C5: a concrete empty heap file and three allocations,
yielding ids 0, 1, 2. -/
theorem C5_alloc_sequential_witness :
    newFileManager [] = .ok ⟨[], ((([] : List Byte).length / PageSize : Nat) : Int)⟩ ∧
    ((allocN ⟨[], ((([] : List Byte).length / PageSize : Nat) : Int)⟩ 3).1)[1]? =
      some (((([] : List Byte).length / PageSize : Nat) : Int) + 1) ∧
    ((allocN ⟨[], ((([] : List Byte).length / PageSize : Nat) : Int)⟩ 3).1).Pairwise (· < ·) ∧
    (allocN ⟨[], ((([] : List Byte).length / PageSize : Nat) : Int)⟩ 3).2.file = [] := by
  obtain ⟨-, h2⟩ := C5_alloc_sequential [] 3
  obtain ⟨hok, h3⟩ := h2 (by norm_num [PageSize])
  obtain ⟨hvals, hpair, -, hfile⟩ := h3 (by norm_num [PageSize])
  exact ⟨hok, hvals 1 (by norm_num), hpair, hfile⟩

/-- Counterexample to C5 as stated: with an empty heap file, the
`2^63`-th successive allocation wraps to `-2^63`, which is neither the
claimed identifier `fileLength/4096 + 2^63` nor greater than its
predecessor, the `(2^63 - 1)`-th identifier `2^63 - 1`. -/
theorem C5_alloc_sequential_counterexample :
    ((allocN ⟨[], 0⟩ (2 ^ 63 + 1)).1)[2 ^ 63 - 1]? = some (2 ^ 63 - 1) ∧
    ((allocN ⟨[], 0⟩ (2 ^ 63 + 1)).1)[2 ^ 63]? = some (-(2 ^ 63)) ∧
    ¬ ((2 ^ 63 - 1 : Int) < -(2 ^ 63)) ∧ (-(2 ^ 63) : Int) ≠ (0 + 2 ^ 63 : Int) := by
  have hI : isInt64 ((⟨[], 0⟩ : FileManager).nextID) := by
    unfold isInt64; norm_num
  have hids := allocN_ids ⟨[], 0⟩ (2 ^ 63 + 1) hI
  simp only [show (⟨[], 0⟩ : FileManager).nextID = 0 from rfl, zero_add] at hids
  refine ⟨?_, ?_, by norm_num, by norm_num⟩
  · rw [hids, List.getElem?_map, List.getElem?_range (by norm_num), Option.map_some']
    have hv : int64wrap ((2 ^ 63 - 1 : Nat) : Int) = 2 ^ 63 - 1 := by decide
    rw [hv]
  · rw [hids, List.getElem?_map, List.getElem?_range (by norm_num), Option.map_some']
    have hv : int64wrap ((2 ^ 63 : Nat) : Int) = -(2 ^ 63) := by decide
    rw [hv]

/-- A concrete 4096-byte page filled with one byte value, used to
instantiate theorems at concrete inputs. -/
@[irreducible] def pageOf (b : Byte) : List Byte := List.replicate PageSize b

theorem pageOf_length (b : Byte) : (pageOf b).length = PageSize := by
  unfold pageOf
  rw [List.length_replicate]

theorem checkSeek_badSize (id : Int) (buf : List Byte) (h : buf.length ≠ PageSize) :
    checkSeek id buf = .error .invalidArgument := by
  simp [checkSeek, h]

theorem checkSeek_badID (id : Int) (buf : List Byte) (hb : buf.length = PageSize)
    (h : id ≤ -1) : checkSeek id buf = .error .invalidPageID := by
  simp only [checkSeek, hb, ne_eq, not_true_eq_false, if_false, ite_false]
  rw [if_pos (show id ≤ InvalidID by unfold InvalidID; omega)]

/-- C6 (amended: the positive branch additionally requires the id to be
small enough that `id * 4096` does not overflow `int64`, i.e.
`id ≤ 2^51 - 1`; for larger ids the computed offset wraps, so the code does
not seek to `id × 4096`): `ReadPageData` and `WritePageData` fail with the
invalid-argument error when the buffer is not 4096 bytes and with the
invalid-page-id error when `id ≤ -1`, leaving the file untouched in both
cases; on valid small ids, over a heap file whose length is a multiple of
4096, the read returns exactly the 4096 file bytes at offset `id × 4096`,
and fails with `IOError` when that page lies beyond end-of-file. -/
theorem C6_disk_validation (m : FileManager) (id : Int) (buf : List Byte) :
    (buf.length ≠ PageSize →
      readPageData m id buf = .error .invalidArgument ∧
      writePageData m id buf = (some .invalidArgument, m)) ∧
    (buf.length = PageSize → id ≤ -1 →
      readPageData m id buf = .error .invalidPageID ∧
      writePageData m id buf = (some .invalidPageID, m)) ∧
    (buf.length = PageSize → 0 ≤ id → id < 2 ^ 51 → m.file.length % PageSize = 0 →
      ((id * 4096).toNat + 4096 ≤ m.file.length →
        readPageData m id buf = .ok (bslice m.file (id * 4096).toNat 4096)) ∧
      (m.file.length < (id * 4096).toNat + 4096 →
        readPageData m id buf = .error .ioError)) := by
  refine ⟨?_, ?_, ?_⟩
  · intro h
    rw [readPageData, writePageData, checkSeek_badSize id buf h]
    exact ⟨rfl, rfl⟩
  · intro hb h
    rw [readPageData, writePageData, checkSeek_badID id buf hb h]
    exact ⟨rfl, rfl⟩
  · intro hb h0 h1 hmod
    simp only [readPageData, checkSeek_ok id buf h0 h1 hb]
    have hb4 : buf.length = 4096 := by rw [hb, PageSize_eq]
    have hmod4 : m.file.length % 4096 = 0 := by rw [PageSize_eq] at hmod; exact hmod
    have hoffmod : (id * 4096).toNat % 4096 = 0 := by omega
    constructor
    · intro hle
      unfold readBytes
      rw [if_neg (by omega)]
      have hn : min buf.length (m.file.length - (id * 4096).toNat) = 4096 := by
        rw [hb4]; omega
      simp only [hn]
      rw [List.drop_eq_nil_of_le (by omega), List.append_nil]
    · intro hlt
      unfold readBytes
      rw [if_pos (by omega)]

/-- Witness for C6: the three branches at concrete inputs — an empty buffer,
a negative id, and valid reads at id 0 (in range) and id 1 (past EOF) over a
one-page heap file. -/
theorem C6_disk_validation_witness :
    readPageData ⟨[], 0⟩ 0 [] = .error .invalidArgument ∧
    writePageData ⟨[], 0⟩ 0 [] = (some .invalidArgument, ⟨[], 0⟩) ∧
    readPageData ⟨[], 0⟩ (-5) (pageOf 0) = .error .invalidPageID ∧
    writePageData ⟨[], 0⟩ (-5) (pageOf 0) = (some .invalidPageID, ⟨[], 0⟩) ∧
    readPageData ⟨pageOf 0, 1⟩ 0 (pageOf 1) =
      .ok (bslice (pageOf 0) ((0 : Int) * 4096).toNat 4096) ∧
    readPageData ⟨pageOf 0, 1⟩ 1 (pageOf 1) = .error .ioError := by
  obtain ⟨ha, -, -⟩ := C6_disk_validation ⟨[], 0⟩ 0 []
  obtain ⟨-, hbneg, -⟩ := C6_disk_validation ⟨[], 0⟩ (-5) (pageOf 0)
  obtain ⟨-, -, hc0⟩ := C6_disk_validation ⟨pageOf 0, 1⟩ 0 (pageOf 1)
  obtain ⟨-, -, hc1⟩ := C6_disk_validation ⟨pageOf 0, 1⟩ 1 (pageOf 1)
  have hmod : (pageOf (0 : Byte)).length % PageSize = 0 := by
    rw [pageOf_length, Nat.mod_self]
  obtain ⟨h5, -⟩ := hc0 (pageOf_length 1) (by norm_num) (by norm_num) hmod
  obtain ⟨-, h6⟩ := hc1 (pageOf_length 1) (by norm_num) (by norm_num) hmod
  obtain ⟨h1r, h1w⟩ := ha (by simp [PageSize])
  obtain ⟨h2r, h2w⟩ := hbneg (pageOf_length 0) (by norm_num)
  refine ⟨h1r, h1w, h2r, h2w, h5 ?_, h6 ?_⟩
  · rw [pageOf_length, PageSize_eq]
    norm_num
  · rw [pageOf_length, PageSize_eq]
    norm_num

/-- Counterexample to C6 as stated: at id `2^52` the Go offset
`id * 4096` wraps around `int64` to byte offset 0, so over a one-page heap
file the read succeeds — returning page 0's bytes — although the page at
byte offset `id × 4096` lies entirely beyond end-of-file, where the claim
requires an `IOError`. -/
theorem C6_disk_validation_counterexample :
    readPageData ⟨pageOf 0, 1⟩ (2 ^ 52) (pageOf 1) = .ok (pageOf 0) ∧
    (pageOf (0 : Byte)).length < ((2 ^ 52 : Int) * 4096).toNat := by
  constructor
  · have hwrap : int64wrap ((2 ^ 52 : Int) * ((4096 : Nat) : Int)) = 0 := by decide
    simp only [readPageData, checkSeek, pageOf_length, PageSize_eq,
      ne_eq, not_true_eq_false, if_false, ite_false, hwrap,
      if_neg (show ¬ (2 ^ 52 : Int) ≤ InvalidID by unfold InvalidID; norm_num),
      if_neg (show ¬ (0 : Int) < 0 by norm_num)]
    unfold readBytes
    rw [if_neg (by rw [pageOf_length, PageSize_eq]; omega)]
    simp only [pageOf_length, PageSize_eq, Int.toNat_zero, Nat.sub_zero, min_self]
    unfold bslice
    rw [List.drop_zero, List.take_of_length_le (by rw [pageOf_length, PageSize_eq]),
      List.drop_eq_nil_of_le (by rw [pageOf_length, PageSize_eq]), List.append_nil]
  · rw [pageOf_length, PageSize_eq]
    norm_num

/-- `btree.toPageID`: reinterpret an 8-byte little-endian unsigned 64-bit
value as a signed `PageID`; any slice whose length is not 8 yields the
invalid id `-1`. -/
def toPageID (b : List Byte) : Int :=
  if b.length ≠ 8 then InvalidID
  else uint64ToInt64 (decodeLE b)

/-- `btree.to8Bytes`: a `PageID` as 8 little-endian bytes of its `uint64`
reinterpretation. -/
def to8Bytes (i : Int) : List Byte := encodeLE 8 (int64ToUInt64 i)

/-- `btree.to2Bytes`: a `uint16` as 2 little-endian bytes. -/
def to2Bytes (v : Nat) : List Byte := encodeLE 2 v

/-- The 8-byte leaf tag, `"LEAF    "` in ASCII. -/
def leafTag : List Byte := [76, 69, 65, 70, 32, 32, 32, 32]

/-- The 8-byte branch tag, `"BRANCH  "` in ASCII. -/
def branchTag : List Byte := [66, 82, 65, 78, 67, 72, 32, 32]

/-- `btree.NewMeta`: view construction only checks that the page is
4096 bytes; the view aliases the page buffer, so the accessors below act on
the page's bytes directly. -/
def newMeta (page : List Byte) : Except Err Unit :=
  if page.length ≠ PageSize then .error .invalidArgument else .ok ()

/-- `Meta.GetRootID`: decode `pageData[:8]`. -/
def metaGetRootID (page : List Byte) : Int := toPageID (page.take 8)

/-- `Meta.SetRootID`: reject every id ≤ -1, otherwise copy the id's 8
little-endian bytes over `pageData[:8]` in place.  Returns the error (if
any) together with the page buffer after the call. -/
def metaSetRootID (page : List Byte) (rootID : Int) : Option Err × List Byte :=
  if rootID ≤ InvalidID then (some .invalidPageID, page)
  else (none, overwrite page 0 (to8Bytes rootID))

/-- `btree.NewNode`: view construction only checks that the page is
4096 bytes. -/
def newNode (page : List Byte) : Except Err Unit :=
  if page.length ≠ PageSize then .error .invalidArgument else .ok ()

/-- `Node.GetNodeType` / the node header: `pageData[:8]`. -/
def nodeGetType (page : List Byte) : List Byte := page.take 8

/-- `Node.SetNodeType`: copy an 8-byte tag constant over `pageData[:8]`. -/
def nodeSetType (page : List Byte) (tag : List Byte) : List Byte :=
  overwrite page 0 tag

/-- The node body, `pageData[8:]`. -/
def nodeBody (page : List Byte) : List Byte := page.drop 8

/-- `Leaf.header.prevID`: `nodeBody[:8]`. -/
def leafPrevBytes (page : List Byte) : List Byte := (nodeBody page).take 8

/-- `Leaf.header.nextID`: `nodeBody[8:16]`. -/
def leafNextBytes (page : List Byte) : List Byte := ((nodeBody page).drop 8).take 8

/-- `Slot.header.numSlot` of a leaf: `nodeBody[16:18]`. -/
def leafNumSlotBytes (page : List Byte) : List Byte := ((nodeBody page).drop 16).take 2

/-- `Slot.header.freeSpace` of a leaf: `nodeBody[18:20]`. -/
def leafFreeSpaceBytes (page : List Byte) : List Byte := ((nodeBody page).drop 18).take 2

/-- `Slot.body` of a leaf: `nodeBody[20:]`. -/
def slotBody (page : List Byte) : List Byte := (nodeBody page).drop 20

/-- `Leaf.GetPrevID`. -/
def leafGetPrevID (page : List Byte) : Int := toPageID (leafPrevBytes page)

/-- `Leaf.GetNextID`. -/
def leafGetNextID (page : List Byte) : Int := toPageID (leafNextBytes page)

/-- `Leaf.GetNumSlots` (`uint16`). -/
def leafGetNumSlots (page : List Byte) : Nat := decodeLE (leafNumSlotBytes page)

/-- `Leaf.GetFreeSpace` (`uint16`). -/
def leafGetFreeSpace (page : List Byte) : Nat := decodeLE (leafFreeSpaceBytes page)

/-- `Slot.reset` through a leaf view: zero the slot count and set the free
space to the slot body's length (as `uint16`); the two 2-byte writes land at
page offsets 24 and 26. -/
def leafSlotReset (page : List Byte) : List Byte :=
  overwrite (overwrite page 24 (to2Bytes 0)) 26 (to2Bytes (slotBody page).length)

/-- `Leaf.reset`: set the previous and next sibling ids to the invalid id
(8-byte writes at page offsets 8 and 16), then reset the slot directory. -/
def leafReset (page : List Byte) : List Byte :=
  leafSlotReset (overwrite (overwrite page 8 (to8Bytes InvalidID)) 16 (to8Bytes InvalidID))

/-- `btree.NewLeaf`: fails with `WrongNodeType` unless the node tag is the
leaf tag, checks the body is 4088 bytes, then resets the leaf in place;
returns the updated page. -/
def newLeaf (page : List Byte) : Except Err (List Byte) :=
  if nodeGetType page ≠ leafTag then .error .wrongNodeType
  else if (nodeBody page).length ≠ PageSize - 8 then .error .invalidArgument
  else .ok (leafReset page)

theorem to8Bytes_length (i : Int) : (to8Bytes i).length = 8 := by
  rw [to8Bytes, encodeLE_length]

theorem to2Bytes_length (v : Nat) : (to2Bytes v).length = 2 := by
  rw [to2Bytes, encodeLE_length]

/-- Full decode/encode round trip over the signed reinterpretation. -/
theorem toPageID_to8Bytes (i : Int) (h : isInt64 i) : toPageID (to8Bytes i) = i := by
  obtain ⟨h1, h2⟩ := h
  unfold toPageID to8Bytes int64ToUInt64
  rw [if_neg (by rw [encodeLE_length]; omega)]
  rw [decodeLE_encodeLE]
  have h2564 : (256 : Nat) ^ 8 = 2 ^ 64 := by norm_num
  rw [h2564]
  have hv : ((i % 2 ^ 64).toNat) % 2 ^ 64 = (i % 2 ^ 64).toNat := by omega
  rw [hv]
  unfold uint64ToInt64
  split
  · omega
  · omega

theorem leafPrevBytes_eq (page : List Byte) : leafPrevBytes page = bslice page 8 8 := rfl

theorem leafNextBytes_eq (page : List Byte) : leafNextBytes page = bslice page 16 8 := by
  unfold leafNextBytes nodeBody bslice
  rw [List.drop_drop]

theorem leafNumSlotBytes_eq (page : List Byte) :
    leafNumSlotBytes page = bslice page 24 2 := by
  unfold leafNumSlotBytes nodeBody bslice
  rw [List.drop_drop]

theorem leafFreeSpaceBytes_eq (page : List Byte) :
    leafFreeSpaceBytes page = bslice page 26 2 := by
  unfold leafFreeSpaceBytes nodeBody bslice
  rw [List.drop_drop]

theorem slotBody_eq (page : List Byte) : slotBody page = page.drop 28 := by
  unfold slotBody nodeBody
  rw [List.drop_drop]

theorem take_eq_bslice (page : List Byte) (n : Nat) : page.take n = bslice page 0 n := by
  unfold bslice
  rw [List.drop_zero]

/-- C7: `Meta.SetRootID(id)` fails for every id ≤ -1 and succeeds for every
id ≥ 0, writing id as a little-endian 64-bit value into the first 8 bytes of
the page; `Meta.GetRootID` after a successful `SetRootID(id)` returns id. -/
theorem C7_meta_setRootID_roundtrip (page : List Byte) (id : Int)
    (hp : page.length = PageSize) (hI : isInt64 id) :
    (id ≤ -1 → metaSetRootID page id = (some .invalidPageID, page)) ∧
    (0 ≤ id →
      (metaSetRootID page id).1 = none ∧
      (metaSetRootID page id).2.take 8 = encodeLE 8 id.toNat ∧
      metaGetRootID (metaSetRootID page id).2 = id) := by
  have hp4 : page.length = 4096 := by rw [hp, PageSize_eq]
  constructor
  · intro h
    rw [metaSetRootID, if_pos (show id ≤ InvalidID by unfold InvalidID; omega)]
  · intro h0
    have hset : metaSetRootID page id = (none, overwrite page 0 (to8Bytes id)) := by
      rw [metaSetRootID, if_neg (show ¬ id ≤ InvalidID by unfold InvalidID; omega)]
    have htake : (overwrite page 0 (to8Bytes id)).take 8 = to8Bytes id := by
      rw [take_eq_bslice]
      have := bslice_overwrite_self page (to8Bytes id) 0
        (by rw [to8Bytes_length]; omega)
      rwa [to8Bytes_length] at this
    have henc : to8Bytes id = encodeLE 8 id.toNat := by
      unfold to8Bytes int64ToUInt64
      have : id % 2 ^ 64 = id := Int.emod_eq_of_lt (by omega) (by exact lt_trans hI.2 (by norm_num))
      rw [this]
    refine ⟨by rw [hset], ?_, ?_⟩
    · rw [hset]
      show (overwrite page 0 (to8Bytes id)).take 8 = encodeLE 8 id.toNat
      rw [htake, henc]
    · rw [hset]
      show metaGetRootID (overwrite page 0 (to8Bytes id)) = id
      unfold metaGetRootID
      rw [take_eq_bslice]
      have hbs := bslice_overwrite_self page (to8Bytes id) 0
        (by rw [to8Bytes_length]; omega)
      rw [to8Bytes_length] at hbs
      rw [hbs]
      exact toPageID_to8Bytes id hI

/-- Witness for C7: rejection at id -3 and a set/get round trip at id 5 on a
concrete zero page. -/
theorem C7_meta_setRootID_roundtrip_witness :
    metaSetRootID (pageOf 0) (-3) = (some .invalidPageID, pageOf 0) ∧
    (metaSetRootID (pageOf 0) 5).1 = none ∧
    (metaSetRootID (pageOf 0) 5).2.take 8 = encodeLE 8 (5 : Int).toNat ∧
    metaGetRootID (metaSetRootID (pageOf 0) 5).2 = 5 := by
  obtain ⟨hrej, -⟩ := C7_meta_setRootID_roundtrip (pageOf 0) (-3) (pageOf_length 0) (by decide)
  obtain ⟨-, hpos⟩ := C7_meta_setRootID_roundtrip (pageOf 0) 5 (pageOf_length 0) (by decide)
  obtain ⟨h1, h2, h3⟩ := hpos (by norm_num)
  exact ⟨hrej (by norm_num), h1, h2, h3⟩

/-- C10: the Meta view aliases the page buffer: an accepted
`SetRootID(id)` (id ≥ 0) rewrites exactly bytes [0:8) of the 4096-byte
buffer in place — bytes [8:4096) and the length are unchanged — and a
rejected `SetRootID` (id ≤ -1) leaves the whole buffer unchanged. -/
theorem C10_meta_setRootID_frame (page : List Byte) (id : Int)
    (hp : page.length = PageSize) :
    (0 ≤ id →
      (metaSetRootID page id).1 = none ∧
      (metaSetRootID page id).2.length = page.length ∧
      (metaSetRootID page id).2.take 8 = to8Bytes id ∧
      (metaSetRootID page id).2.drop 8 = page.drop 8) ∧
    (id ≤ -1 → metaSetRootID page id = (some .invalidPageID, page)) := by
  have hp4 : page.length = 4096 := by rw [hp, PageSize_eq]
  constructor
  · intro h0
    have hset : metaSetRootID page id = (none, overwrite page 0 (to8Bytes id)) := by
      rw [metaSetRootID, if_neg (show ¬ id ≤ InvalidID by unfold InvalidID; omega)]
    refine ⟨by rw [hset], ?_, ?_, ?_⟩
    · rw [hset]
      exact overwrite_length page (to8Bytes id) 0 (by rw [to8Bytes_length]; omega)
    · rw [hset, take_eq_bslice]
      have := bslice_overwrite_self page (to8Bytes id) 0
        (by rw [to8Bytes_length]; omega)
      rwa [to8Bytes_length] at this
    · rw [hset]
      exact drop_overwrite page (to8Bytes id) 0 8 (by rw [to8Bytes_length]) (by omega)
  · intro h
    rw [metaSetRootID, if_pos (show id ≤ InvalidID by unfold InvalidID; omega)]

/-- Witness for C10: the frame conditions at ids 1 (accepted) and -1
(rejected) on a concrete page of sevens. -/
theorem C10_meta_setRootID_frame_witness :
    (metaSetRootID (pageOf 7) 1).1 = none ∧
    (metaSetRootID (pageOf 7) 1).2.length = (pageOf 7).length ∧
    (metaSetRootID (pageOf 7) 1).2.take 8 = to8Bytes 1 ∧
    (metaSetRootID (pageOf 7) 1).2.drop 8 = (pageOf 7).drop 8 ∧
    metaSetRootID (pageOf 7) (-1) = (some .invalidPageID, pageOf 7) := by
  obtain ⟨hpos, -⟩ := C10_meta_setRootID_frame (pageOf 7) 1 (pageOf_length 7)
  obtain ⟨-, hneg⟩ := C10_meta_setRootID_frame (pageOf 7) (-1) (pageOf_length 7)
  obtain ⟨h1, h2, h3, h4⟩ := hpos (by norm_num)
  exact ⟨h1, h2, h3, h4, hneg (by norm_num)⟩

theorem leafReset_parts (page : List Byte) (hp4 : page.length = 4096) :
    bslice (leafReset page) 8 8 = to8Bytes InvalidID ∧
    bslice (leafReset page) 16 8 = to8Bytes InvalidID ∧
    bslice (leafReset page) 24 2 = to2Bytes 0 ∧
    bslice (leafReset page) 26 2 = to2Bytes 4068 ∧
    (leafReset page).length = 4096 := by
  have h8 : (to8Bytes InvalidID).length = 8 := to8Bytes_length _
  have hp1len : (overwrite page 8 (to8Bytes InvalidID)).length = 4096 := by
    rw [overwrite_length _ _ _ (by rw [h8, hp4]; norm_num)]
    exact hp4
  have hp2len : (overwrite (overwrite page 8 (to8Bytes InvalidID)) 16
      (to8Bytes InvalidID)).length = 4096 := by
    rw [overwrite_length _ _ _ (by rw [h8, hp1len]; norm_num)]
    exact hp1len
  have hslot : (slotBody (overwrite (overwrite page 8 (to8Bytes InvalidID)) 16
      (to8Bytes InvalidID))).length = 4068 := by
    rw [slotBody_eq, List.length_drop, hp2len]
  unfold leafReset leafSlotReset
  rw [hslot]
  have h2a : (to2Bytes 0).length = 2 := to2Bytes_length _
  have h2b : (to2Bytes 4068).length = 2 := to2Bytes_length _
  have hp3len : (overwrite (overwrite (overwrite page 8 (to8Bytes InvalidID)) 16
      (to8Bytes InvalidID)) 24 (to2Bytes 0)).length = 4096 := by
    rw [overwrite_length _ _ _ (by rw [h2a, hp2len]; norm_num)]
    exact hp2len
  have hp4len : (overwrite (overwrite (overwrite (overwrite page 8 (to8Bytes InvalidID)) 16
      (to8Bytes InvalidID)) 24 (to2Bytes 0)) 26 (to2Bytes 4068)).length = 4096 := by
    rw [overwrite_length _ _ _ (by rw [h2b, hp3len]; norm_num)]
    exact hp3len
  refine ⟨?_, ?_, ?_, ?_, hp4len⟩
  · rw [bslice_overwrite_before _ _ 26 8 8 (by norm_num) (by rw [hp3len]; norm_num)]
    rw [bslice_overwrite_before _ _ 24 8 8 (by norm_num) (by rw [hp2len]; norm_num)]
    rw [bslice_overwrite_before _ _ 16 8 8 (by norm_num) (by rw [hp1len]; norm_num)]
    have := bslice_overwrite_self page (to8Bytes InvalidID) 8 (by rw [h8, hp4]; norm_num)
    rwa [h8] at this
  · rw [bslice_overwrite_before _ _ 26 16 8 (by norm_num) (by rw [hp3len]; norm_num)]
    rw [bslice_overwrite_before _ _ 24 16 8 (by norm_num) (by rw [hp2len]; norm_num)]
    have := bslice_overwrite_self (overwrite page 8 (to8Bytes InvalidID))
      (to8Bytes InvalidID) 16 (by rw [h8, hp1len]; norm_num)
    rwa [h8] at this
  · rw [bslice_overwrite_before _ _ 26 24 2 (by norm_num) (by rw [hp3len]; norm_num)]
    have := bslice_overwrite_self (overwrite (overwrite page 8 (to8Bytes InvalidID)) 16
      (to8Bytes InvalidID)) (to2Bytes 0) 24 (by rw [h2a, hp2len]; norm_num)
    rwa [h2a] at this
  · have := bslice_overwrite_self (overwrite (overwrite (overwrite page 8
      (to8Bytes InvalidID)) 16 (to8Bytes InvalidID)) 24 (to2Bytes 0)) (to2Bytes 4068) 26
      (by rw [h2b, hp3len]; norm_num)
    rwa [h2b] at this

/-- C4: over any 4096-byte page, `NewLeaf` fails with `WrongNodeType` when
the node's 8-byte tag is not `"LEAF    "`; when the tag is the leaf tag it
succeeds and — regardless of the body bytes previously present — leaves the
leaf with `GetPrevID = -1`, `GetNextID = -1`, `GetNumSlots = 0` and
`GetFreeSpace = 4068` (the full slot-body length). -/
theorem C4_newLeaf_init (page : List Byte) (hp : page.length = PageSize) :
    (nodeGetType page ≠ leafTag → newLeaf page = .error .wrongNodeType) ∧
    (nodeGetType page = leafTag →
      (newLeaf page).map leafGetPrevID = .ok (-1) ∧
      (newLeaf page).map leafGetNextID = .ok (-1) ∧
      (newLeaf page).map leafGetNumSlots = .ok 0 ∧
      (newLeaf page).map leafGetFreeSpace = .ok 4068) := by
  have hp4 : page.length = 4096 := by rw [hp, PageSize_eq]
  constructor
  · intro h
    rw [newLeaf, if_pos h]
  · intro h
    have hok : newLeaf page = .ok (leafReset page) := by
      rw [newLeaf, if_neg (not_not_intro h)]
      rw [if_neg (by simp only [nodeBody, List.length_drop, hp4, PageSize_eq]; omega)]
    obtain ⟨hprev, hnext, hcnt, hfs, -⟩ := leafReset_parts page hp4
    rw [hok]
    refine ⟨?_, ?_, ?_, ?_⟩
    · show Except.ok (leafGetPrevID (leafReset page)) = .ok (-1)
      unfold leafGetPrevID
      rw [leafPrevBytes_eq, hprev, toPageID_to8Bytes _ (by decide)]
      rfl
    · show Except.ok (leafGetNextID (leafReset page)) = .ok (-1)
      unfold leafGetNextID
      rw [leafNextBytes_eq, hnext, toPageID_to8Bytes _ (by decide)]
      rfl
    · show Except.ok (leafGetNumSlots (leafReset page)) = .ok 0
      unfold leafGetNumSlots
      rw [leafNumSlotBytes_eq, hcnt, to2Bytes, decodeLE_encodeLE]
      norm_num
    · show Except.ok (leafGetFreeSpace (leafReset page)) = .ok 4068
      unfold leafGetFreeSpace
      rw [leafFreeSpaceBytes_eq, hfs, to2Bytes, decodeLE_encodeLE]
      norm_num

/-- A concrete page carrying the leaf tag and a zeroed body. -/
@[irreducible] def leafPage : List Byte := leafTag ++ List.replicate 4088 (0 : Byte)

theorem leafPage_length : leafPage.length = PageSize := by
  unfold leafPage
  rw [List.length_append, List.length_replicate,
    show leafTag.length = 8 from rfl, PageSize_eq]

theorem leafPage_tag : nodeGetType leafPage = leafTag := by
  unfold nodeGetType leafPage
  exact List.take_left' rfl

/-- Witness for C4: the failure branch on a zero page (whose tag is not the
leaf tag) and the success branch on a concrete leaf-tagged page. -/
theorem C4_newLeaf_init_witness :
    newLeaf (pageOf 0) = .error .wrongNodeType ∧
    (newLeaf leafPage).map leafGetPrevID = .ok (-1) ∧
    (newLeaf leafPage).map leafGetNextID = .ok (-1) ∧
    (newLeaf leafPage).map leafGetNumSlots = .ok 0 ∧
    (newLeaf leafPage).map leafGetFreeSpace = .ok 4068 := by
  obtain ⟨hfail, -⟩ := C4_newLeaf_init (pageOf 0) (pageOf_length 0)
  obtain ⟨-, hsucc⟩ := C4_newLeaf_init leafPage leafPage_length
  obtain ⟨h1, h2, h3, h4⟩ := hsucc leafPage_tag
  refine ⟨hfail ?_, h1, h2, h3, h4⟩
  unfold nodeGetType pageOf
  rw [List.take_replicate]
  rw [show min 8 PageSize = 8 by rw [PageSize_eq]; norm_num]
  decide

/-- C8: the Node and Leaf views map fields to fixed page offsets — tag at
[0:8), prevID at [8:16), nextID at [16:24), slot count at [24:26), free
space at [26:28), record region at [28:4096) — and the typed accessors
return exactly the values encoded at those offsets. -/
theorem C8_leaf_layout (tag prev next cnt fs recs : List Byte)
    (htag : tag.length = 8) (hprev : prev.length = 8) (hnext : next.length = 8)
    (hcnt : cnt.length = 2) (hfs : fs.length = 2) (_hrecs : recs.length = 4068) :
    nodeGetType (tag ++ (prev ++ (next ++ (cnt ++ (fs ++ recs))))) = tag ∧
    bslice (tag ++ (prev ++ (next ++ (cnt ++ (fs ++ recs))))) 8 8 = prev ∧
    bslice (tag ++ (prev ++ (next ++ (cnt ++ (fs ++ recs))))) 16 8 = next ∧
    bslice (tag ++ (prev ++ (next ++ (cnt ++ (fs ++ recs))))) 24 2 = cnt ∧
    bslice (tag ++ (prev ++ (next ++ (cnt ++ (fs ++ recs))))) 26 2 = fs ∧
    (tag ++ (prev ++ (next ++ (cnt ++ (fs ++ recs))))).drop 28 = recs ∧
    leafGetPrevID (tag ++ (prev ++ (next ++ (cnt ++ (fs ++ recs))))) = toPageID prev ∧
    leafGetNextID (tag ++ (prev ++ (next ++ (cnt ++ (fs ++ recs))))) = toPageID next ∧
    leafGetNumSlots (tag ++ (prev ++ (next ++ (cnt ++ (fs ++ recs))))) = decodeLE cnt ∧
    leafGetFreeSpace (tag ++ (prev ++ (next ++ (cnt ++ (fs ++ recs))))) = decodeLE fs := by
  have d8 : (tag ++ (prev ++ (next ++ (cnt ++ (fs ++ recs))))).drop 8 =
      prev ++ (next ++ (cnt ++ (fs ++ recs))) := List.drop_left' htag
  have d16 : (tag ++ (prev ++ (next ++ (cnt ++ (fs ++ recs))))).drop 16 =
      next ++ (cnt ++ (fs ++ recs)) := by
    rw [show (16 : Nat) = 8 + 8 from rfl, ← List.drop_drop, d8]
    exact List.drop_left' hprev
  have d24 : (tag ++ (prev ++ (next ++ (cnt ++ (fs ++ recs))))).drop 24 =
      cnt ++ (fs ++ recs) := by
    rw [show (24 : Nat) = 16 + 8 from rfl, ← List.drop_drop, d16]
    exact List.drop_left' hnext
  have d26 : (tag ++ (prev ++ (next ++ (cnt ++ (fs ++ recs))))).drop 26 =
      fs ++ recs := by
    rw [show (26 : Nat) = 24 + 2 from rfl, ← List.drop_drop, d24]
    exact List.drop_left' hcnt
  have d28 : (tag ++ (prev ++ (next ++ (cnt ++ (fs ++ recs))))).drop 28 = recs := by
    rw [show (28 : Nat) = 26 + 2 from rfl, ← List.drop_drop, d26]
    exact List.drop_left' hfs
  have s8 : bslice (tag ++ (prev ++ (next ++ (cnt ++ (fs ++ recs))))) 8 8 = prev := by
    rw [bslice, d8]
    exact List.take_left' hprev
  have s16 : bslice (tag ++ (prev ++ (next ++ (cnt ++ (fs ++ recs))))) 16 8 = next := by
    rw [bslice, d16]
    exact List.take_left' hnext
  have s24 : bslice (tag ++ (prev ++ (next ++ (cnt ++ (fs ++ recs))))) 24 2 = cnt := by
    rw [bslice, d24]
    exact List.take_left' hcnt
  have s26 : bslice (tag ++ (prev ++ (next ++ (cnt ++ (fs ++ recs))))) 26 2 = fs := by
    rw [bslice, d26]
    exact List.take_left' hfs
  refine ⟨List.take_left' htag, s8, s16, s24, s26, d28, ?_, ?_, ?_, ?_⟩
  · rw [leafGetPrevID, leafPrevBytes_eq, s8]
  · rw [leafGetNextID, leafNextBytes_eq, s16]
  · rw [leafGetNumSlots, leafNumSlotBytes_eq, s24]
  · rw [leafGetFreeSpace, leafFreeSpaceBytes_eq, s26]

/-- Witness for C8: a concrete leaf page assembled from encoded fields. -/
theorem C8_leaf_layout_witness :
    nodeGetType (leafTag ++ (to8Bytes 1 ++ (to8Bytes (-1) ++ (to2Bytes 1 ++
      (to2Bytes 4040 ++ List.replicate 4068 (0 : Byte)))))) = leafTag ∧
    leafGetPrevID (leafTag ++ (to8Bytes 1 ++ (to8Bytes (-1) ++ (to2Bytes 1 ++
      (to2Bytes 4040 ++ List.replicate 4068 (0 : Byte)))))) = toPageID (to8Bytes 1) ∧
    leafGetNextID (leafTag ++ (to8Bytes 1 ++ (to8Bytes (-1) ++ (to2Bytes 1 ++
      (to2Bytes 4040 ++ List.replicate 4068 (0 : Byte)))))) = toPageID (to8Bytes (-1)) ∧
    leafGetNumSlots (leafTag ++ (to8Bytes 1 ++ (to8Bytes (-1) ++ (to2Bytes 1 ++
      (to2Bytes 4040 ++ List.replicate 4068 (0 : Byte)))))) = decodeLE (to2Bytes 1) ∧
    leafGetFreeSpace (leafTag ++ (to8Bytes 1 ++ (to8Bytes (-1) ++ (to2Bytes 1 ++
      (to2Bytes 4040 ++ List.replicate 4068 (0 : Byte)))))) = decodeLE (to2Bytes 4040) := by
  obtain ⟨h0, -, -, -, -, -, h1, h2, h3, h4⟩ :=
    C8_leaf_layout leafTag (to8Bytes 1) (to8Bytes (-1)) (to2Bytes 1) (to2Bytes 4040)
      (List.replicate 4068 (0 : Byte)) rfl (to8Bytes_length 1) (to8Bytes_length (-1))
      (to2Bytes_length 1) (to2Bytes_length 4040) (List.length_replicate ..)
  exact ⟨h0, h1, h2, h3, h4⟩

/-- An 8-byte little-endian encoding of `2^63`: the smallest unsigned value
whose signed reinterpretation is negative. -/
def hi8 : List Byte := [0, 0, 0, 0, 0, 0, 0, 128]

/-- A 4096-byte Meta page whose first 8 bytes encode `2^63`. -/
@[irreducible] def metaHiPage : List Byte := hi8 ++ List.replicate 4088 (0 : Byte)

/-- A 4096-byte leaf page whose prevID and nextID fields encode `2^63`. -/
@[irreducible] def leafHiPage : List Byte :=
  leafTag ++ (hi8 ++ (hi8 ++ List.replicate 4072 (0 : Byte)))

/-- C9: `toPageID` returns the invalid id -1 for every byte slice whose
length is not 8; for an 8-byte slice it reinterprets the little-endian
unsigned value as a signed `int64`, so any slice encoding a value ≥ `2^63`
decodes to a negative id — and concretely `GetRootID`, `GetPrevID` and
`GetNextID` return `-2^63` (a negative id other than -1, which `SetRootID`
itself rejects) on pages holding such bytes. -/
theorem C9_toPageID_signed_reinterpretation (b c : List Byte)
    (hb : b.length ≠ 8) (hc : c.length = 8) (hcv : 2 ^ 63 ≤ decodeLE c) :
    toPageID b = -1 ∧
    toPageID c = (decodeLE c : Int) - 2 ^ 64 ∧
    toPageID c < 0 ∧
    metaGetRootID metaHiPage = -(2 ^ 63) ∧
    (-(2 ^ 63) : Int) ≠ -1 ∧
    (metaSetRootID metaHiPage (-(2 ^ 63))).1 = some .invalidPageID ∧
    leafGetPrevID leafHiPage = -(2 ^ 63) ∧
    leafGetNextID leafHiPage = -(2 ^ 63) := by
  have hdec : toPageID c = (decodeLE c : Int) - 2 ^ 64 := by
    rw [toPageID, if_neg (not_not_intro hc), uint64ToInt64, if_neg (by omega)]
  have hlt : decodeLE c < 2 ^ 64 := by
    have h := decodeLE_lt c
    rw [hc, show (256 : Nat) ^ 8 = 2 ^ 64 by norm_num] at h
    exact h
  have hhi : toPageID hi8 = -(2 ^ 63) := by decide
  refine ⟨?_, hdec, ?_, ?_, by norm_num, ?_, ?_, ?_⟩
  · rw [toPageID, if_pos hb]
    rfl
  · rw [hdec]
    omega
  · rw [metaGetRootID]
    unfold metaHiPage
    rw [take_eq_bslice, bslice, List.drop_zero, List.take_left' (show hi8.length = 8 from rfl)]
    exact hhi
  · rw [metaSetRootID, if_pos (show -(2 ^ 63 : Int) ≤ InvalidID by unfold InvalidID; norm_num)]
  · rw [leafGetPrevID, leafPrevBytes_eq]
    unfold leafHiPage
    rw [bslice, List.drop_left' (show leafTag.length = 8 from rfl),
      List.take_left' (show hi8.length = 8 from rfl)]
    exact hhi
  · rw [leafGetNextID, leafNextBytes_eq]
    unfold leafHiPage
    rw [bslice, show (16 : Nat) = 8 + 8 from rfl, ← List.drop_drop,
      List.drop_left' (show leafTag.length = 8 from rfl),
      List.drop_left' (show hi8.length = 8 from rfl),
      List.take_left' (show hi8.length = 8 from rfl)]
    exact hhi

/-- Witness for C9: the empty slice decodes to the invalid id and `hi8`
(encoding `2^63`) decodes to a negative id. -/
theorem C9_toPageID_signed_reinterpretation_witness :
    toPageID [] = -1 ∧
    toPageID hi8 = (decodeLE hi8 : Int) - 2 ^ 64 ∧
    toPageID hi8 < 0 ∧
    metaGetRootID metaHiPage = -(2 ^ 63) ∧
    (-(2 ^ 63) : Int) ≠ -1 ∧
    (metaSetRootID metaHiPage (-(2 ^ 63))).1 = some .invalidPageID ∧
    leafGetPrevID leafHiPage = -(2 ^ 63) ∧
    leafGetNextID leafHiPage = -(2 ^ 63) :=
  C9_toPageID_signed_reinterpretation [] hi8 (by decide) (by decide) (by decide)

/-- Modelled from the spec: the `pool` package implementation (Buffer Pool,
Pool Manager, `Page`) is missing from the sources — only its test is
present — so frames follow spec §3/§4.2: a frame holds one page's bytes,
the page's id (invalid when empty), a signed pin count and a dirty flag. -/
structure Frame where
  pageID : Int
  pageData : List Byte
  pin : Int
  update : Bool
deriving DecidableEq, Repr

instance : Inhabited Frame := ⟨⟨InvalidID, [], 0, false⟩⟩

/-- Modelled from the spec (§4.2): `pool.NewPool(n)`, a fixed-capacity
table of `n` empty frames. -/
def newPool (n : Nat) : List Frame :=
  List.replicate n ⟨InvalidID, List.replicate PageSize 0, 0, false⟩

/-- Modelled from the spec (§4.3): the pool manager composes the disk
manager with the frame table. -/
structure PoolManager where
  fileManager : FileManager
  frames : List Frame
deriving DecidableEq, Repr

/-- First frame index satisfying `p`, scanning left to right — the
deterministic selection policy allowed by spec §4.2. -/
def findFrameIdx (p : Frame → Bool) : List Frame → Option Nat
  | [] => none
  | f :: fs => if p f then some 0 else (findFrameIdx p fs).map (· + 1)

/-- The frame at index `i` (frames are only read at indices the operations
themselves produced). -/
def getFrame (pm : PoolManager) (i : Nat) : Frame := pm.frames.getD i default

def setFrame (pm : PoolManager) (i : Nat) (f : Frame) : PoolManager :=
  { pm with frames := pm.frames.set i f }

/-- Modelled from the spec (§4.2): obtain a usable frame index — a free
frame when one exists, else the first frame with pin count 0 (never a
pinned frame) as eviction victim, flushing its bytes through the disk
manager first when dirty and aborting the eviction if that flush fails;
fails with `PoolExhausted` when no unpinned frame exists. -/
def obtainFrame (pm : PoolManager) : Except Err (Nat × PoolManager) :=
  match findFrameIdx (fun f => f.pageID == InvalidID) pm.frames with
  | some i => .ok (i, pm)
  | none =>
    match findFrameIdx (fun f => decide (f.pin ≤ 0)) pm.frames with
    | none => .error .poolExhausted
    | some i =>
      let f := getFrame pm i
      if f.update then
        match writePageData pm.fileManager f.pageID f.pageData with
        | (some e, _) => .error e
        | (none, fm) =>
          .ok (i, { fileManager := fm, frames := pm.frames.set i { f with update := false } })
      else .ok (i, pm)

/-- Modelled from the spec (§4.3): `createPage` — obtain a frame (evicting
if needed), allocate a fresh id, zero-initialize the buffer, mark it dirty
and set the pin count to 1, the implicit creation reference.  The frame is
obtained before the id is allocated, matching the ids observed in the
spec's scenarios: a failed `createPage` consumes no id. -/
def createPage (pm : PoolManager) : Except Err (Int × PoolManager) :=
  match obtainFrame pm with
  | .error e => .error e
  | .ok (i, pm1) =>
    let p := allocateNewPage pm1.fileManager
    .ok (p.1, { fileManager := p.2,
                frames := pm1.frames.set i ⟨p.1, List.replicate PageSize 0, 1, true⟩ })

/-- Modelled from the spec (§4.3): `fetchPage` — rejects ids ≤ -1; on a
cache hit increments the frame's pin count; on a miss obtains a frame
(evicting and flushing as needed), reads the page from disk into it, sets
the pin count to 1 and clears the dirty flag.  The returned index is the
page handle. -/
def fetchPage (pm : PoolManager) (id : Int) : Except Err (Nat × PoolManager) :=
  if id ≤ InvalidID then .error .invalidPageID
  else
    match findFrameIdx (fun f => f.pageID == id) pm.frames with
    | some i =>
      let f := getFrame pm i
      .ok (i, setFrame pm i { f with pin := f.pin + 1 })
    | none =>
      match obtainFrame pm with
      | .error e => .error e
      | .ok (i, pm1) =>
        match readPageData pm1.fileManager id (getFrame pm1 i).pageData with
        | .error e => .error e
        | .ok data => .ok (i, setFrame pm1 i ⟨id, data, 1, false⟩)

/-- Modelled from the spec (§4.3): `Page.GetData` through a handle. -/
def getData (pm : PoolManager) (i : Nat) : List Byte := (getFrame pm i).pageData

/-- Modelled from the spec (§4.3): `Page.SetData` — replaces the buffer,
requiring an exactly page-sized argument (no effect otherwise). -/
def setData (pm : PoolManager) (i : Nat) (b : List Byte) : PoolManager :=
  if b.length = PageSize then setFrame pm i { getFrame pm i with pageData := b } else pm

/-- Modelled from the spec (§4.3): `Page.SetUpdate` — set the dirty flag. -/
def setUpdate (pm : PoolManager) (i : Nat) (u : Bool) : PoolManager :=
  setFrame pm i { getFrame pm i with update := u }

/-- Modelled from the spec (§4.3): `Page.SubPin` / `unpin` — decrement the
pin count by one. -/
def subPin (pm : PoolManager) (i : Nat) : PoolManager :=
  setFrame pm i { getFrame pm i with pin := (getFrame pm i).pin - 1 }

/-- Modelled from the spec (§4.3): `Page.GetPinCount`. -/
def getPinCount (pm : PoolManager) (i : Nat) : Int := (getFrame pm i).pin

/-- A codec write through a pinned handle: the Meta/Node/Leaf views alias
the frame's buffer (spec §4.4), so their in-place writes replace the
frame's bytes directly, without touching pin count or dirty flag. -/
def putData (pm : PoolManager) (i : Nat) (b : List Byte) : PoolManager :=
  setFrame pm i { getFrame pm i with pageData := b }

/-- The helper `createPage` of `pool/pool_test.go`: create a page, fetch it,
write the bytes, mark the frame dirty, and release the fetch reference —
leaving one outstanding reference, the implicit creation one. -/
def testCreatePage (pm : PoolManager) (bytes : List Byte) :
    Except Err (Int × PoolManager) :=
  match createPage pm with
  | .error e => .error e
  | .ok (pageID, pm1) =>
    match fetchPage pm1 pageID with
    | .error e => .error e
    | .ok (i, pm2) => .ok (pageID, subPin (setUpdate (setData pm2 i bytes) i true) i)

theorem writeBytes_nil_zero (d : List Byte) : writeBytes [] 0 d = d := by
  unfold writeBytes padTo overwrite
  simp [List.drop_replicate]

theorem writeBytes_append_end (f d : List Byte) : writeBytes f f.length d = f ++ d := by
  unfold writeBytes padTo overwrite
  have h1 : f.length + d.length - f.length = d.length := by omega
  rw [h1, List.take_left' rfl, List.drop_append_eq_append_drop]
  rw [List.drop_eq_nil_of_le (by omega), List.drop_replicate]
  simp

theorem readPageData_page0_append (a b buf : List Byte) (n : Int)
    (ha : a.length = PageSize) (hbuf : buf.length = PageSize) :
    readPageData ⟨a ++ b, n⟩ 0 buf = .ok a := by
  simp only [readPageData, checkSeek_ok 0 buf (by norm_num) (by norm_num) hbuf]
  have ha4 : a.length = 4096 := by rw [ha, PageSize_eq]
  have hbuf4 : buf.length = 4096 := by rw [hbuf, PageSize_eq]
  unfold readBytes
  have hlen : (a ++ b).length = 4096 + b.length := by
    rw [List.length_append, ha4]
  rw [if_neg (by rw [hlen]; omega)]
  have htn : ((0 : Int) * 4096).toNat = 0 := by norm_num
  rw [htn]
  have hn : min buf.length ((a ++ b).length - 0) = 4096 := by
    rw [hbuf4, hlen]; omega
  simp only [hn]
  rw [List.drop_eq_nil_of_le (by omega), List.append_nil, bslice, List.drop_zero]
  rw [← ha4, List.take_left' rfl]

/-- Observations of the "Pool 1" scenario (`pool/pool_test.go`, subtest
"Pool 1"): ids and bytes seen at each probe, and the results of the two
`createPage` attempts made while the single frame is still pinned. -/
structure C1Obs where
  helloID : Int
  helloData : List Byte
  midCreate : Except Err Int
  worldID : Int
  worldData : List Byte
  midCreate2 : Except Err Int
  helloAgain : List Byte
deriving Repr

/-- The "Pool 1" scenario over the spec-modelled pool: capacity 1 over an
empty heap file; create+fetch+write the first page, probe a second
`createPage` while it is pinned, release the remaining pin, create+fetch+
write the second page (evicting and flushing the first), probe again,
release, and fetch the first page back from disk. -/
def c1Run (hello world : List Byte) : Except Err C1Obs :=
  match testCreatePage ⟨⟨[], 0⟩, newPool 1⟩ hello with
  | .error e => .error e
  | .ok (helloID, pm1) =>
    let helloData := getData pm1 0
    let midCreate := (createPage pm1).map Prod.fst
    let pm2 := subPin pm1 0
    match testCreatePage pm2 world with
    | .error e => .error e
    | .ok (worldID, pm3) =>
      let worldData := getData pm3 0
      let midCreate2 := (createPage pm3).map Prod.fst
      let pm4 := subPin pm3 0
      match fetchPage pm4 helloID with
      | .error e => .error e
      | .ok (hi, pm5) =>
        .ok ⟨helloID, helloData, midCreate, worldID, worldData, midCreate2,
             getData pm5 hi⟩

theorem c1_step1 (hello : List Byte) (hh : hello.length = PageSize) :
    testCreatePage ⟨⟨[], 0⟩, newPool 1⟩ hello =
      .ok (0, ⟨⟨[], 1⟩, [⟨0, hello, 1, true⟩]⟩) := by
  have hwrap1 : int64wrap 1 = 1 := by decide
  simp [testCreatePage, createPage, fetchPage, obtainFrame, findFrameIdx, newPool,
    allocateNewPage, getFrame, setFrame, setData, setUpdate, subPin, getData,
    InvalidID, hwrap1, hh]

/-- C1 (spec-modelled pool): with pool capacity 1 over a fresh heap file —
create+fetch+write a first page (id 0, one reference outstanding): a second
`createPage` fails with `PoolExhausted`; after releasing the one pin,
create+fetch+write of a second page (id 1) succeeds (the dirty first frame
is flushed to disk before reuse), a further `createPage` again fails while
the second page is pinned; after releasing that pin, fetching id 0 again
returns exactly the bytes last written to it. -/
theorem C1_pool1_eviction_flush_reload (hello world : List Byte)
    (hh : hello.length = PageSize) (hw : world.length = PageSize) :
    c1Run hello world =
      .ok ⟨0, hello, .error .poolExhausted, 1, world, .error .poolExhausted, hello⟩ := by
  have h1 := c1_step1 hello hh
  have hgd1 : getData ⟨⟨[], 1⟩, [⟨0, hello, 1, true⟩]⟩ 0 = hello := rfl
  have hmc : createPage ⟨⟨[], 1⟩, [⟨0, hello, 1, true⟩]⟩ = .error .poolExhausted := by
    simp [createPage, obtainFrame, findFrameIdx, getFrame, InvalidID]
  have hsp : subPin ⟨⟨[], 1⟩, [⟨0, hello, 1, true⟩]⟩ 0 =
      ⟨⟨[], 1⟩, [⟨0, hello, 0, true⟩]⟩ := rfl
  have hwp : writePageData ⟨[], 1⟩ 0 hello = (none, ⟨hello, 1⟩) := by
    rw [writePageData_ok ⟨[], 1⟩ 0 hello (by norm_num) (by norm_num) hh]
    rw [show ((0 : Int) * 4096).toNat = 0 by norm_num, writeBytes_nil_zero]
  have hwrap2 : int64wrap 2 = 2 := by decide
  have h2 : testCreatePage ⟨⟨[], 1⟩, [⟨0, hello, 0, true⟩]⟩ world =
      .ok (1, ⟨⟨hello, 2⟩, [⟨1, world, 1, true⟩]⟩) := by
    simp [testCreatePage, createPage, fetchPage, obtainFrame, findFrameIdx,
      allocateNewPage, getFrame, setFrame, setData, setUpdate, subPin,
      InvalidID, hwp, hwrap2, hw]
  have hgd2 : getData ⟨⟨hello, 2⟩, [⟨1, world, 1, true⟩]⟩ 0 = world := rfl
  have hmc2 : createPage ⟨⟨hello, 2⟩, [⟨1, world, 1, true⟩]⟩ = .error .poolExhausted := by
    simp [createPage, obtainFrame, findFrameIdx, getFrame, InvalidID]
  have hsp2 : subPin ⟨⟨hello, 2⟩, [⟨1, world, 1, true⟩]⟩ 0 =
      ⟨⟨hello, 2⟩, [⟨1, world, 0, true⟩]⟩ := rfl
  have hwp2 : writePageData ⟨hello, 2⟩ 1 world = (none, ⟨hello ++ world, 2⟩) := by
    rw [writePageData_ok ⟨hello, 2⟩ 1 world (by norm_num) (by norm_num) hw]
    rw [show ((1 : Int) * 4096).toNat = 4096 by decide,
      show (4096 : Nat) = hello.length by rw [hh, PageSize_eq], writeBytes_append_end]
  have hrd : readPageData ⟨hello ++ world, 2⟩ 0 world = .ok hello :=
    readPageData_page0_append hello world world 2 hh hw
  have h4 : fetchPage ⟨⟨hello, 2⟩, [⟨1, world, 0, true⟩]⟩ 0 =
      .ok (0, ⟨⟨hello ++ world, 2⟩, [⟨0, hello, 1, false⟩]⟩) := by
    simp [fetchPage, obtainFrame, findFrameIdx, getFrame, setFrame,
      InvalidID, hwp2, hrd]
  have hgd3 : getData ⟨⟨hello ++ world, 2⟩, [⟨0, hello, 1, false⟩]⟩ 0 = hello := rfl
  simp only [c1Run, h1, hgd1, hmc, hsp, h2, hgd2, hmc2, hsp2, h4, hgd3, Except.map]

/-- Witness for C1: the scenario run with two concrete distinct pages. -/
theorem C1_pool1_eviction_flush_reload_witness :
    c1Run (pageOf 1) (pageOf 2) =
      .ok ⟨0, pageOf 1, .error .poolExhausted, 1, pageOf 2,
           .error .poolExhausted, pageOf 1⟩ :=
  C1_pool1_eviction_flush_reload (pageOf 1) (pageOf 2) (pageOf_length 1) (pageOf_length 2)

/-- `btree.BTree`: retains only the Meta page's id. -/
structure BTree where
  metaID : Int
deriving DecidableEq, Repr

/-- `BTree.GetMetaID`. -/
def getMetaID (b : BTree) : Int := b.metaID

/-- `btree.NewBTree` over the spec-modelled pool manager, following
`btree/btree.go` line by line: create and fetch the Meta page, create and
fetch the root page, wire the Meta's root pointer to the root page's id,
tag the root as a leaf and initialize it as an empty leaf.  Neither page is
unpinned. -/
def newBTree (pm : PoolManager) : Except Err (BTree × PoolManager) :=
  match createPage pm with
  | .error e => .error e
  | .ok (metaID, pm1) =>
    match fetchPage pm1 metaID with
    | .error e => .error e
    | .ok (mi, pm2) =>
      match createPage pm2 with
      | .error e => .error e
      | .ok (rootID, pm3) =>
        match fetchPage pm3 rootID with
        | .error e => .error e
        | .ok (ri, pm4) =>
          match newMeta (getData pm4 mi) with
          | .error e => .error e
          | .ok _ =>
            match metaSetRootID (getData pm4 mi) rootID with
            | (some e, _) => .error e
            | (none, metaPage) =>
              let pm5 := putData pm4 mi metaPage
              match newNode (getData pm5 ri) with
              | .error e => .error e
              | .ok _ =>
                let pm6 := putData pm5 ri (nodeSetType (getData pm5 ri) leafTag)
                match newLeaf (getData pm6 ri) with
                | .error e => .error e
                | .ok resetPage => .ok (⟨metaID⟩, putData pm6 ri resetPage)

/-- `BTree.Clear` over the spec-modelled pool, following `btree/btree.go`:
fetch the Meta page and register two deferred unpins for it, read the root
id through the Meta view, fetch the root page and register two deferred
unpins for it, then invalidate the stored Meta id.  The deferred unpins run
on every path after their registration, as Go's `defer` does. -/
def btreeClear (b : BTree) (pm : PoolManager) :
    Option Err × BTree × PoolManager :=
  match fetchPage pm b.metaID with
  | .error e => (some e, b, pm)
  | .ok (mi, pm1) =>
    match newMeta (getData pm1 mi) with
    | .error e => (some e, b, subPin (subPin pm1 mi) mi)
    | .ok _ =>
      match fetchPage pm1 (metaGetRootID (getData pm1 mi)) with
      | .error e => (some e, b, subPin (subPin pm1 mi) mi)
      | .ok (ri, pm2) =>
        (none, ⟨InvalidID⟩, subPin (subPin (subPin (subPin pm2 ri) ri) mi) mi)

theorem leafReset_tag (page : List Byte) (hp4 : page.length = 4096) :
    bslice (leafReset page) 0 8 = bslice page 0 8 := by
  have h8 : (to8Bytes InvalidID).length = 8 := to8Bytes_length _
  have hp1len : (overwrite page 8 (to8Bytes InvalidID)).length = 4096 := by
    rw [overwrite_length _ _ _ (by rw [h8, hp4]; norm_num)]
    exact hp4
  have hp2len : (overwrite (overwrite page 8 (to8Bytes InvalidID)) 16
      (to8Bytes InvalidID)).length = 4096 := by
    rw [overwrite_length _ _ _ (by rw [h8, hp1len]; norm_num)]
    exact hp1len
  have hp3len : (overwrite (overwrite (overwrite page 8 (to8Bytes InvalidID)) 16
      (to8Bytes InvalidID)) 24 (to2Bytes 0)).length = 4096 := by
    rw [overwrite_length _ _ _ (by rw [to2Bytes_length, hp2len]; norm_num)]
    exact hp2len
  unfold leafReset leafSlotReset
  rw [bslice_overwrite_before _ _ 26 0 8 (by norm_num) (by rw [hp3len]; norm_num)]
  rw [bslice_overwrite_before _ _ 24 0 8 (by norm_num) (by rw [hp2len]; norm_num)]
  rw [bslice_overwrite_before _ _ 16 0 8 (by norm_num) (by rw [hp1len]; norm_num)]
  rw [bslice_overwrite_before _ _ 8 0 8 (by norm_num) (by rw [hp4]; norm_num)]

theorem c3_newBTree :
    newBTree ⟨⟨[], 0⟩, newPool 2⟩ =
      .ok (⟨0⟩, ⟨⟨[], 2⟩,
        [⟨0, overwrite (List.replicate PageSize 0) 0 (to8Bytes 1), 2, true⟩,
         ⟨1, leafReset (overwrite (List.replicate PageSize 0) 0 leafTag), 2, true⟩]⟩) := by
  have hzp : (List.replicate PageSize (0 : Byte)).length = PageSize :=
    List.length_replicate ..
  have hzp4 : (List.replicate PageSize (0 : Byte)).length = 4096 := by
    rw [hzp, PageSize_eq]
  have hwrap1 : int64wrap 1 = 1 := by decide
  have hwrap2 : int64wrap 2 = 2 := by decide
  have hc1 : createPage ⟨⟨[], 0⟩, newPool 2⟩ =
      .ok (0, ⟨⟨[], 1⟩, [⟨0, List.replicate PageSize 0, 1, true⟩,
        ⟨-1, List.replicate PageSize 0, 0, false⟩]⟩) := by
    simp [createPage, obtainFrame, findFrameIdx, newPool, allocateNewPage,
      InvalidID, hwrap1]
  have hf1 : fetchPage ⟨⟨[], 1⟩, [⟨0, List.replicate PageSize 0, 1, true⟩,
      ⟨-1, List.replicate PageSize 0, 0, false⟩]⟩ 0 =
      .ok (0, ⟨⟨[], 1⟩, [⟨0, List.replicate PageSize 0, 2, true⟩,
        ⟨-1, List.replicate PageSize 0, 0, false⟩]⟩) := by
    simp [fetchPage, findFrameIdx, getFrame, setFrame, InvalidID]
  have hc2 : createPage ⟨⟨[], 1⟩, [⟨0, List.replicate PageSize 0, 2, true⟩,
      ⟨-1, List.replicate PageSize 0, 0, false⟩]⟩ =
      .ok (1, ⟨⟨[], 2⟩, [⟨0, List.replicate PageSize 0, 2, true⟩,
        ⟨1, List.replicate PageSize 0, 1, true⟩]⟩) := by
    simp [createPage, obtainFrame, findFrameIdx, allocateNewPage, InvalidID, hwrap2]
  have hf2 : fetchPage ⟨⟨[], 2⟩, [⟨0, List.replicate PageSize 0, 2, true⟩,
      ⟨1, List.replicate PageSize 0, 1, true⟩]⟩ 1 =
      .ok (1, ⟨⟨[], 2⟩, [⟨0, List.replicate PageSize 0, 2, true⟩,
        ⟨1, List.replicate PageSize 0, 2, true⟩]⟩) := by
    simp [fetchPage, findFrameIdx, getFrame, setFrame, InvalidID]
  have hnm : newMeta (List.replicate PageSize (0 : Byte)) = .ok () := by
    simp [newMeta, hzp]
  have hsr : metaSetRootID (List.replicate PageSize (0 : Byte)) 1 =
      (none, overwrite (List.replicate PageSize 0) 0 (to8Bytes 1)) := by
    rw [metaSetRootID, if_neg (show ¬ (1 : Int) ≤ InvalidID by unfold InvalidID; norm_num)]
  have hnn : newNode (List.replicate PageSize (0 : Byte)) = .ok () := by
    simp [newNode, hzp]
  have htag : nodeGetType (overwrite (List.replicate PageSize 0) 0 leafTag) = leafTag := by
    rw [nodeGetType, take_eq_bslice]
    have := bslice_overwrite_self (List.replicate PageSize 0) leafTag 0
      (by rw [show leafTag.length = 8 from rfl, hzp4]; norm_num)
    rwa [show leafTag.length = 8 from rfl] at this
  have hbody : ((overwrite (List.replicate PageSize 0) 0 leafTag).drop 8).length =
      PageSize - 8 := by
    rw [List.length_drop,
      overwrite_length _ _ _ (by rw [show leafTag.length = 8 from rfl, hzp4]; norm_num), hzp]
  have hnl : newLeaf (overwrite (List.replicate PageSize 0) 0 leafTag) =
      .ok (leafReset (overwrite (List.replicate PageSize 0) 0 leafTag)) := by
    rw [newLeaf, if_neg (not_not_intro htag), nodeBody, if_neg (not_not_intro hbody)]
  simp only [newBTree, hc1, hf1, hc2, hf2]
  simp only [getData, getFrame, List.getD, List.get?_cons_zero, List.get?_cons_succ,
    List.getElem?_cons_zero, List.getElem?_cons_succ, Option.getD_some,
    hnm, hsr, hnn, hnl, putData, setFrame, nodeSetType,
    List.set_cons_zero, List.set_cons_succ]

theorem c3_clear :
    btreeClear ⟨0⟩ ⟨⟨[], 2⟩,
      [⟨0, overwrite (List.replicate PageSize 0) 0 (to8Bytes 1), 2, true⟩,
       ⟨1, leafReset (overwrite (List.replicate PageSize 0) 0 leafTag), 2, true⟩]⟩ =
    (none, ⟨-1⟩, ⟨⟨[], 2⟩,
      [⟨0, overwrite (List.replicate PageSize 0) 0 (to8Bytes 1), 1, true⟩,
       ⟨1, leafReset (overwrite (List.replicate PageSize 0) 0 leafTag), 1, true⟩]⟩) := by
  have hzp4 : (List.replicate PageSize (0 : Byte)).length = 4096 := by
    rw [List.length_replicate, PageSize_eq]
  have hmlen : (overwrite (List.replicate PageSize 0) 0 (to8Bytes 1)).length = PageSize := by
    rw [overwrite_length _ _ _ (by rw [to8Bytes_length, hzp4]; norm_num)]
    exact List.length_replicate ..
  have hf0 : fetchPage ⟨⟨[], 2⟩,
      [⟨0, overwrite (List.replicate PageSize 0) 0 (to8Bytes 1), 2, true⟩,
       ⟨1, leafReset (overwrite (List.replicate PageSize 0) 0 leafTag), 2, true⟩]⟩ 0 =
      .ok (0, ⟨⟨[], 2⟩,
      [⟨0, overwrite (List.replicate PageSize 0) 0 (to8Bytes 1), 3, true⟩,
       ⟨1, leafReset (overwrite (List.replicate PageSize 0) 0 leafTag), 2, true⟩]⟩) := by
    simp [fetchPage, findFrameIdx, getFrame, setFrame, InvalidID]
  have hnmM : newMeta (overwrite (List.replicate PageSize 0) 0 (to8Bytes 1)) = .ok () := by
    simp [newMeta, hmlen]
  have hroot : metaGetRootID (overwrite (List.replicate PageSize 0) 0 (to8Bytes 1)) = 1 := by
    rw [metaGetRootID, take_eq_bslice]
    have := bslice_overwrite_self (List.replicate PageSize 0) (to8Bytes 1) 0
      (by rw [to8Bytes_length, hzp4]; norm_num)
    rw [to8Bytes_length] at this
    rw [this]
    exact toPageID_to8Bytes 1 (by decide)
  have hf1 : fetchPage ⟨⟨[], 2⟩,
      [⟨0, overwrite (List.replicate PageSize 0) 0 (to8Bytes 1), 3, true⟩,
       ⟨1, leafReset (overwrite (List.replicate PageSize 0) 0 leafTag), 2, true⟩]⟩ 1 =
      .ok (1, ⟨⟨[], 2⟩,
      [⟨0, overwrite (List.replicate PageSize 0) 0 (to8Bytes 1), 3, true⟩,
       ⟨1, leafReset (overwrite (List.replicate PageSize 0) 0 leafTag), 3, true⟩]⟩) := by
    simp [fetchPage, findFrameIdx, getFrame, setFrame, InvalidID]
  simp only [btreeClear, hf0]
  simp only [getData, getFrame, List.getD, List.get?_cons_zero, List.get?_cons_succ,
    List.getElem?_cons_zero, List.getElem?_cons_succ, Option.getD_some, hnmM, hroot, hf1]
  simp only [subPin, setFrame, getFrame, List.getD, List.get?_cons_zero, List.get?_cons_succ,
    List.getElem?_cons_zero, List.getElem?_cons_succ, Option.getD_some,
    List.set_cons_zero, List.set_cons_succ, InvalidID]
  norm_num

/-- C3 (amended; spec-modelled pool): from a fresh pool of capacity 2,
`NewBTree` allocates a Meta page (id 0) and a root page (id 1), wires the
Meta's root pointer to the root id, initializes the root as an empty leaf,
and leaves both pages with pin count 2 (the implicit create-time reference
plus the explicit fetch).  `Clear` fetches each page once more and unpins
twice — a net release of ONE reference per page, so both pin counts end at
1, one above their pre-NewBTree value 0 — and sets the stored Meta id to
the invalid id, so `GetMetaID` returns -1 afterwards. -/
theorem C3_newBTree_clear_lifecycle :
    ∃ b pm, newBTree ⟨⟨[], 0⟩, newPool 2⟩ = .ok (b, pm) ∧
      getMetaID b = 0 ∧
      metaGetRootID (getData pm 0) = 1 ∧
      nodeGetType (getData pm 1) = leafTag ∧
      leafGetPrevID (getData pm 1) = -1 ∧
      leafGetNextID (getData pm 1) = -1 ∧
      leafGetNumSlots (getData pm 1) = 0 ∧
      leafGetFreeSpace (getData pm 1) = 4068 ∧
      getPinCount pm 0 = 2 ∧ getPinCount pm 1 = 2 ∧
      ∃ b2 pm2, btreeClear b pm = (none, b2, pm2) ∧
        getMetaID b2 = -1 ∧
        getPinCount pm2 0 = 1 ∧ getPinCount pm2 1 = 1 ∧
        getPinCount (⟨⟨[], 0⟩, newPool 2⟩ : PoolManager) 0 = 0 ∧
        getPinCount (⟨⟨[], 0⟩, newPool 2⟩ : PoolManager) 1 = 0 := by
  have hzp4 : (List.replicate PageSize (0 : Byte)).length = 4096 := by
    rw [List.length_replicate, PageSize_eq]
  have hnodeP : (overwrite (List.replicate PageSize 0) 0 leafTag).length = 4096 := by
    rw [overwrite_length _ _ _ (by rw [show leafTag.length = 8 from rfl, hzp4]; norm_num)]
    exact hzp4
  refine ⟨⟨0⟩, _, c3_newBTree, rfl, ?_, ?_, ?_, ?_, ?_, ?_, rfl, rfl,
    ⟨-1⟩, _, c3_clear, rfl, rfl, rfl, rfl, rfl⟩
  · show metaGetRootID (overwrite (List.replicate PageSize 0) 0 (to8Bytes 1)) = 1
    rw [metaGetRootID, take_eq_bslice]
    have := bslice_overwrite_self (List.replicate PageSize 0) (to8Bytes 1) 0
      (by rw [to8Bytes_length, hzp4]; norm_num)
    rw [to8Bytes_length] at this
    rw [this]
    exact toPageID_to8Bytes 1 (by decide)
  · show nodeGetType (leafReset (overwrite (List.replicate PageSize 0) 0 leafTag)) = leafTag
    rw [nodeGetType, take_eq_bslice, leafReset_tag _ hnodeP]
    have := bslice_overwrite_self (List.replicate PageSize 0) leafTag 0
      (by rw [show leafTag.length = 8 from rfl, hzp4]; norm_num)
    rw [show leafTag.length = 8 from rfl] at this
    exact this
  · show leafGetPrevID (leafReset (overwrite (List.replicate PageSize 0) 0 leafTag)) = -1
    obtain ⟨hprev, -, -, -, -⟩ := leafReset_parts _ hnodeP
    rw [leafGetPrevID, leafPrevBytes_eq, hprev, toPageID_to8Bytes _ (by decide)]
    rfl
  · show leafGetNextID (leafReset (overwrite (List.replicate PageSize 0) 0 leafTag)) = -1
    obtain ⟨-, hnext, -, -, -⟩ := leafReset_parts _ hnodeP
    rw [leafGetNextID, leafNextBytes_eq, hnext, toPageID_to8Bytes _ (by decide)]
    rfl
  · show leafGetNumSlots (leafReset (overwrite (List.replicate PageSize 0) 0 leafTag)) = 0
    obtain ⟨-, -, hcnt, -, -⟩ := leafReset_parts _ hnodeP
    rw [leafGetNumSlots, leafNumSlotBytes_eq, hcnt, to2Bytes, decodeLE_encodeLE]
    norm_num
  · show leafGetFreeSpace (leafReset (overwrite (List.replicate PageSize 0) 0 leafTag)) = 4068
    obtain ⟨-, -, -, hfs, -⟩ := leafReset_parts _ hnodeP
    rw [leafGetFreeSpace, leafFreeSpaceBytes_eq, hfs, to2Bytes, decodeLE_encodeLE]
    norm_num

/-- Counterexample to C3 as stated: after `NewBTree` and `Clear` from a
fresh capacity-2 pool, the Meta page's frame still has pin count 1, whereas
its pre-NewBTree pin count was 0 — `Clear` does not return the pin counts
to their pre-NewBTree values (its own fetch adds a reference that the two
unpins only partly compensate). -/
theorem C3_newBTree_clear_counterexample :
    (newBTree ⟨⟨[], 0⟩, newPool 2⟩).map
      (fun r => getPinCount (btreeClear r.1 r.2).2.2 0) = .ok 1 ∧
    getPinCount (⟨⟨[], 0⟩, newPool 2⟩ : PoolManager) 0 = 0 ∧ (1 : Int) ≠ 0 := by
  refine ⟨?_, rfl, by norm_num⟩
  rw [c3_newBTree]
  simp only [Except.map]
  rw [c3_clear]
  rfl
